import Mathlib

/-!
Verification development for the bank-kit workspace task runner
(turbo-sdk): monorepo root discovery, workspace enumeration, task
cataloguing and task dispatch.

The source contains two sibling implementations of each helper (referred
to below as v1 and v2) plus a synchronous dispatch variant.  The
embedding models:

* filesystem paths as lists of components (an absolute path is the list
  of its segments from the filesystem root, so the path separator and
  the resolve step are implicit; the parent of the empty list is itself,
  matching both implementations' fixpoint test at the filesystem root);
* the runtime JSON parser abstractly: a read of a JSON document yields
  either a parse/IO failure or a parsed JSON value, so every function is
  expressed over the parse outcome rather than over raw text;
* JavaScript truthiness and null-access errors explicitly where the
  source relies on them.
-/

namespace TurboKit

/-- JSON values as produced by the runtime JSON parser.  Object fields are
kept in document order; manifests are assumed not to repeat keys. -/
inductive Json where
  | null
  | bool (b : Bool)
  | num (n : Int)
  | str (s : String)
  | arr (elems : List Json)
  | obj (fields : List (String × Json))
deriving Repr

/-- Property access on a JSON value: returns the field of an object, and
the undefined result (none) for a missing field or a non-object. -/
def Json.lookup (j : Json) (k : String) : Option Json :=
  match j with
  | .obj fields => fields.lookup k
  | _ => none

/-- Whether a JSON value is the JSON null (property access on it throws). -/
def Json.isNull (j : Json) : Bool :=
  match j with
  | .null => true
  | _ => false

/-- JavaScript truthiness of a possibly-undefined JSON value (none models
the undefined value). -/
def truthy : Option Json → Bool
  | none => false
  | some .null => false
  | some (.bool b) => b
  | some (.num n) => n != 0
  | some (.str s) => s != ""
  | some (.arr _) => true
  | some (.obj _) => true

/-- An absolute filesystem path, as its list of components. -/
abbrev FsPath := List String

/-- Error kinds raised by the SDK helpers (modelling thrown JS errors). -/
inductive SdkError where
  | notInMonorepo
  | manifestReadError
  | readdirError
  | missingDependency
  | parseError
  | typeError
deriving DecidableEq, Repr

/-- The filesystem as seen by the helpers: existence tests, JSON document
reads (none models a read or parse failure) and directory listings
(entries are name/isDirectory pairs in listing order; none models a
failing listing, e.g. of a missing directory). -/
structure FS where
  pathExists : FsPath → Bool
  readJson : FsPath → Option Json
  readdir : FsPath → Option (List (String × Bool))

/-- Single-step match test of the root walk: a directory matches when it
holds the turbo marker file, or a package manifest whose workspaces field
is truthy.  Reading a manifest that is missing/unparseable throws, as
does destructuring a manifest that parsed to JSON null. -/
def rootMatch (fs : FS) (dir : FsPath) : Except SdkError Bool :=
  if fs.pathExists (dir ++ ["turbo.json"]) then .ok true
  else if fs.pathExists (dir ++ ["package.json"]) then
    match fs.readJson (dir ++ ["package.json"]) with
    | none => .error .manifestReadError
    | some j =>
      if j.isNull then .error .typeError
      else .ok (truthy (j.lookup "workspaces"))
  else .ok false

/-- Worker for the root walk, structurally recursive on the reversed
directory (each step drops the innermost component, i.e. moves to the
parent). -/
def findRootAux (fs : FS) : List String → Except SdkError FsPath
  | [] =>
    match rootMatch fs [] with
    | .error e => .error e
    | .ok true => .ok []
    | .ok false => .error .notInMonorepo
  | x :: parentRev =>
    match rootMatch fs (x :: parentRev).reverse with
    | .error e => .error e
    | .ok true => .ok (x :: parentRev).reverse
    | .ok false => findRootAux fs parentRev

/-- Root discovery: walk from the start directory upward until a
directory matches, failing once the filesystem root (whose parent equals
itself) has been checked without a match.  Both source implementations
reduce to this function: they differ only in how the parent path string
is computed and in that v1 fixes the start at the working directory. -/
def findMonorepoRoot (fs : FS) (startDir : FsPath) : Except SdkError FsPath :=
  findRootAux fs startDir.reverse

/-- Test that a character list has another as initial segment. -/
def charsHaveHead : List Char → List Char → Bool
  | _, [] => true
  | [], _ :: _ => false
  | a :: as, b :: bs => a == b && charsHaveHead as bs

/-- Removal of the leftmost occurrence of a nonempty pattern from a
character list; a list without the pattern is returned unchanged. -/
def removeFirstOcc (pat : List Char) : List Char → List Char
  | [] => []
  | c :: cs =>
    if charsHaveHead (c :: cs) pat then (c :: cs).drop pat.length
    else c :: removeFirstOcc pat cs

/-- Removal of the first occurrence of a pattern from a string, as the
string replace method with an empty replacement does in JavaScript
(later occurrences are kept). -/
def jsReplaceOnce (s pat : String) : String :=
  if pat.data.isEmpty then s
  else String.mk (removeFirstOcc pat.data s.data)

/-- Split of a character list at every occurrence of a separator
character (the splitting the source applies to glob and relative-path
strings). -/
def splitCharsOn (sep : Char) : List Char → List (List Char)
  | [] => [[]]
  | c :: cs =>
    if c == sep then [] :: splitCharsOn sep cs
    else
      match splitCharsOn sep cs with
      | [] => [[c]]
      | h :: t => (c :: h) :: t

/-- Split of a string into its slash-separated segments, as the string
split method on the separator does in JavaScript. -/
def splitPath (s : String) : List String :=
  (splitCharsOn '/' s.data).map String.mk

/-- Workspace glob entries of a root manifest.  Implementation v1 applies
a truthy-or-empty default, v2 a destructuring default; on an array-valued
or absent workspaces field (the manifest convention) both coincide with
this extraction. -/
def manifestGlobs (j : Json) : List Json :=
  match j.lookup "workspaces" with
  | some (.arr l) => l
  | _ => []

/-- Reading of a manifest document: a missing/unparseable file throws a
read error, and a document that parsed to JSON null throws on the
subsequent property access or destructuring. -/
def readManifest (fs : FS) (p : FsPath) : Except SdkError Json :=
  match fs.readJson p with
  | none => .error .manifestReadError
  | some j => if j.isNull then .error .typeError else .ok j

/-- Expansion of one workspace glob, implementation v1: split the glob on
the separator, take the first two segments as directory and pattern, and
only when the pattern is the single wildcard list the directory (a
failing listing, e.g. of a missing directory, throws) and keep the
subdirectories that contain a package manifest. -/
def wsOfGlobV1 (fs : FS) (root : FsPath) (g : String) : Except SdkError (List String) :=
  match splitPath g with
  | d :: p :: _ =>
    if p = "*" then
      match fs.readdir (root ++ [d]) with
      | none => .error .readdirError
      | some entries =>
        .ok (entries.filterMap fun e =>
          if e.2 && fs.pathExists (root ++ [d, e.1, "package.json"])
          then some (d ++ "/" ++ e.1) else none)
    else .ok []
  | _ => .ok []

/-- Expansion of one workspace glob, implementation v2: strip the first
wildcard suffix to get the base, skip the glob entirely when the base
does not exist, otherwise keep the subdirectories that contain a package
manifest. -/
def wsOfGlobV2 (fs : FS) (root : FsPath) (g : String) : Except SdkError (List String) :=
  let base := jsReplaceOnce g "/*"
  let abs := root ++ splitPath base
  if fs.pathExists abs then
    match fs.readdir abs with
    | none => .error .readdirError
    | some entries =>
      .ok (entries.filterMap fun e =>
        if e.2 && fs.pathExists (root ++ splitPath base ++ [e.1, "package.json"])
        then some (base ++ "/" ++ e.1) else none)
  else .ok []

/-- Accumulation of the expansions of all globs in order, implementation
v1; a non-string glob entry throws on the split call. -/
def collectGlobsV1 (fs : FS) (root : FsPath) : List Json → Except SdkError (List String)
  | [] => .ok []
  | g :: gs => do
    let xs ← match g with
      | .str s => wsOfGlobV1 fs root s
      | _ => .error .typeError
    let ys ← collectGlobsV1 fs root gs
    pure (xs ++ ys)

/-- Accumulation of the expansions of all globs in order, implementation
v2; a non-string glob entry throws on the replace call. -/
def collectGlobsV2 (fs : FS) (root : FsPath) : List Json → Except SdkError (List String)
  | [] => .ok []
  | g :: gs => do
    let xs ← match g with
      | .str s => wsOfGlobV2 fs root s
      | _ => .error .typeError
    let ys ← collectGlobsV2 fs root gs
    pure (xs ++ ys)

/-- Lexicographic comparison of character lists by code point. -/
def charListLe : List Char → List Char → Bool
  | [], _ => true
  | _ :: _, [] => false
  | a :: as, b :: bs =>
    if a.toNat < b.toNat then true
    else if b.toNat < a.toNat then false
    else charListLe as bs

/-- String comparison used by the sort call of implementation v2:
lexicographic by code point, as the default JavaScript array sort
compares strings. -/
def strLe (a b : String) : Bool := charListLe a.data b.data

/-- Workspace enumeration, implementation v1: expand the root manifest's
globs in order, with no final sort. -/
def getWorkspacesV1 (fs : FS) (root : FsPath) : Except SdkError (List String) := do
  let m ← readManifest fs (root ++ ["package.json"])
  collectGlobsV1 fs root (manifestGlobs m)

/-- Workspace enumeration, implementation v2: expand the root manifest's
globs in order, then sort the collected relative paths. -/
def getWorkspacesV2 (fs : FS) (root : FsPath) : Except SdkError (List String) := do
  let m ← readManifest fs (root ++ ["package.json"])
  let dirs ← collectGlobsV2 fs root (manifestGlobs m)
  pure (dirs.mergeSort strLe)

/-- Scripts section of a member manifest: the fields of the scripts
object, with a default of no scripts for an absent or falsy field. -/
def manifestScripts (j : Json) : List (String × Json) :=
  match j.lookup "scripts" with
  | some (.obj fields) => fields
  | _ => []

/-- Insertion of one member under one task name in the catalog: append
the member to an existing entry of that task, or append a new entry at
the end (the insertion-ordered map of both implementations). -/
def insertTask : List (String × List String) → String → String → List (String × List String)
  | [], t, w => [(t, [w])]
  | (t', l) :: rest, t, w =>
    if t' = t then (t', l ++ [w]) :: rest
    else (t', l) :: insertTask rest t w

/-- Worker of the task catalog builder: fold the members in order,
reading each member manifest (a failing read throws and aborts the
whole catalog; both implementations read without a surrounding catch)
and inserting each of its script names. -/
def listTasksGo (fs : FS) (root : FsPath) :
    List String → List (String × List String) → Except SdkError (List (String × List String))
  | [], acc => .ok acc
  | w :: rest, acc =>
    match fs.readJson (root ++ splitPath w ++ ["package.json"]) with
    | none => .error .manifestReadError
    | some j =>
      if j.isNull then .error .typeError
      else
        listTasksGo fs root rest
          ((manifestScripts j).foldl (fun m kv => insertTask m kv.1 w) acc)

/-- Task catalog builder: the insertion-ordered task-to-members map that
both implementations build (they differ only in how they print it). -/
def listTasks (fs : FS) (root : FsPath) (workspaces : List String) :
    Except SdkError (List (String × List String)) :=
  listTasksGo fs root workspaces []

/-- The SDK value produced by a successful construction. -/
structure TurboSDK where
  rootPath : FsPath
deriving DecidableEq, Repr

/-- Installation probe of the orchestration executable under the root. -/
def isTurboInstalled (fs : FS) (rootPath : FsPath) : Bool :=
  fs.pathExists (rootPath ++ ["node_modules", ".bin", "turbo"])

/-- Constructor of implementation v1: store the root, then throw a
missing-dependency error when the installation probe fails. -/
def mkTurboSdkV1 (fs : FS) (rootPath : FsPath) : Except SdkError TurboSDK :=
  if isTurboInstalled fs rootPath then .ok ⟨rootPath⟩
  else .error .missingDependency

/-- Constructor of implementation v2: identical probe, inlined. -/
def mkTurboSdkV2 (fs : FS) (root : FsPath) : Except SdkError TurboSDK :=
  if fs.pathExists (root ++ ["node_modules", ".bin", "turbo"]) then .ok ⟨root⟩
  else .error .missingDependency

/-- Result of a task run: the success and tasks fields of the returned
object, as possibly-undefined JSON values (none models undefined). -/
structure RunResult where
  success : Option Json
  tasks : Option Json
deriving Repr

/-- Task dispatch, implementation v1, as a function of the subprocess
exit code and the parse outcome of its captured stdout (none models
unparseable text).  On parse success the success field is the report's
success when truthy, else the exit-code-is-zero boolean, and the tasks
field is the report's tasks when truthy, else the empty array; a parse
failure, or the throwing property access on a null report, is rethrown
as a parse error. -/
def runTaskV1 (exitCode : Int) (stdout : Option Json) : Except SdkError RunResult :=
  match stdout with
  | none => .error .parseError
  | some j =>
    if j.isNull then .error .parseError
    else
      .ok
        { success :=
            if truthy (j.lookup "success") then j.lookup "success"
            else some (.bool (exitCode == 0))
          tasks :=
            if truthy (j.lookup "tasks") then j.lookup "tasks"
            else some (.arr []) }

/-- Task dispatch, implementation v2 (asynchronous mode): destructure the
parsed report and return its success and tasks fields verbatim; a parse
failure, or the throwing destructuring of a null report, yields the
failure default.  The exit code does not enter the result. -/
def runTaskV2 (exitCode : Int) (stdout : Option Json) : RunResult :=
  match stdout with
  | none => { success := some (.bool false), tasks := some (.arr []) }
  | some j =>
    if j.isNull then { success := some (.bool false), tasks := some (.arr []) }
    else { success := j.lookup "success", tasks := j.lookup "tasks" }

/-- Task dispatch, synchronous mode: the success field is the spawn
result's success flag (exit code zero), the tasks field is destructured
from the parsed report; a parse failure, or the throwing destructuring
of a null report, yields the failure default. -/
def runTaskSync (exitCode : Int) (stdout : Option Json) : RunResult :=
  match stdout with
  | none => { success := some (.bool false), tasks := some (.arr []) }
  | some j =>
    if j.isNull then { success := some (.bool false), tasks := some (.arr []) }
    else { success := some (.bool (exitCode == 0)), tasks := j.lookup "tasks" }

/-- Qualification of a directory as repository root in the words of the
specification: it holds the orchestration marker file, or a manifest
declaring a non-empty workspace-glob list.  Written from the spec for
comparison with the code's match test. -/
def specQualifies (fs : FS) (p : FsPath) : Bool :=
  fs.pathExists (p ++ ["turbo.json"]) ||
    (match fs.readJson (p ++ ["package.json"]) with
     | some j =>
       match j.lookup "workspaces" with
       | some (.arr l) => !l.isEmpty
       | _ => false
     | none => false)

/-- All ancestors of a directory, from the filesystem root to the
directory itself (every prefix of the component list). -/
def prefixListOf : FsPath → List FsPath
  | [] => [[]]
  | x :: xs => [] :: (prefixListOf xs).map (x :: ·)

/-- Concrete filesystem: one directory whose manifest declares an empty
workspaces list, and nothing else anywhere. -/
def fsEmptyWs : FS where
  pathExists p := p == ["repo", "package.json"]
  readJson p :=
    if p == ["repo", "package.json"] then
      some (.obj [("workspaces", .arr [])])
    else none
  readdir _ := none

/-- Concrete filesystem with no files at all. -/
def fsNothing : FS where
  pathExists _ := false
  readJson _ := none
  readdir _ := none

/-- Concrete filesystem: the marker file in one directory. -/
def fsMarker : FS where
  pathExists p := p == ["a", "turbo.json"]
  readJson _ := none
  readdir _ := none

/-- Concrete filesystem for enumeration order: globs listed in the
order b then a, each base holding one manifested subdirectory. -/
def fsTwoGlobs : FS where
  pathExists p :=
    p == ["package.json"] ||
    p == ["b"] || p == ["a"] ||
    p == ["b", "x"] || p == ["a", "y"] ||
    p == ["b", "x", "package.json"] || p == ["a", "y", "package.json"]
  readJson p :=
    if p == ["package.json"] then
      some (.obj [("workspaces", .arr [.str "b/*", .str "a/*"])])
    else if p == ["b", "x", "package.json"] then
      some (.obj [("name", .str "x")])
    else if p == ["a", "y", "package.json"] then
      some (.obj [("name", .str "y")])
    else none
  readdir p :=
    if p == ["b"] then some [("x", true)]
    else if p == ["a"] then some [("y", true)]
    else none

/-- Concrete filesystem for the enumeration scenario of the spec: globs
apps then packages, a manifested member, a manifest-less directory and a
non-directory entry. -/
def fsEnum : FS where
  pathExists p :=
    p == ["package.json"] ||
    p == ["apps"] || p == ["packages"] ||
    p == ["apps", "a"] || p == ["apps", "b"] || p == ["packages", "c"] ||
    p == ["apps", "a", "package.json"] || p == ["packages", "c", "package.json"]
  readJson p :=
    if p == ["package.json"] then
      some (.obj [("workspaces", .arr [.str "packages/*", .str "apps/*"])])
    else if p == ["apps", "a", "package.json"] then
      some (.obj [("name", .str "a"), ("scripts", .obj [("build", .str "b")])])
    else if p == ["packages", "c", "package.json"] then
      some (.obj [("name", .str "c")])
    else none
  readdir p :=
    if p == ["apps"] then some [("a", true), ("b", true), ("note.txt", false)]
    else if p == ["packages"] then some [("c", true)]
    else none

/-- Concrete filesystem: a single glob whose base directory is missing. -/
def fsMissingBase : FS where
  pathExists p := p == ["package.json"]
  readJson p :=
    if p == ["package.json"] then
      some (.obj [("workspaces", .arr [.str "missing/*"])])
    else none
  readdir _ := none

/-- Concrete filesystem: two members, the first with an unreadable
manifest, the second with a build script. -/
def fsBadMember : FS where
  pathExists p :=
    p == ["pkgs", "a"] || p == ["pkgs", "b"] || p == ["pkgs", "b", "package.json"]
  readJson p :=
    if p == ["pkgs", "b", "package.json"] then
      some (.obj [("name", .str "b"), ("scripts", .obj [("build", .str "x")])])
    else none
  readdir _ := none


/-- Membership test expressing which relative paths one glob contributes
in implementation v2: the glob's base exists, and the path names a
subdirectory entry of the base that holds a package manifest. -/
def globMemberV2 (fs : FS) (root : FsPath) (g : String) (x : String) : Bool :=
  let base := jsReplaceOnce g "/*"
  let abs := root ++ splitPath base
  fs.pathExists abs &&
    ((fs.readdir abs).getD []).any fun e =>
      e.2 && fs.pathExists (root ++ splitPath base ++ [e.1, "package.json"]) &&
        (x == base ++ "/" ++ e.1)

/-- Unfolding rule for the root walk in terms of the directory itself. -/
theorem findMonorepoRoot_eq (fs : FS) (dir : FsPath) :
    findMonorepoRoot fs dir =
      match rootMatch fs dir with
      | .error e => .error e
      | .ok true => .ok dir
      | .ok false =>
        if dir = [] then .error SdkError.notInMonorepo
        else findMonorepoRoot fs dir.dropLast := by
  induction dir using List.reverseRecOn with
  | nil =>
    simp [findMonorepoRoot, findRootAux]
  | append_singleton l a _ =>
    have hrev : (l ++ [a]).reverse = a :: l.reverse := by simp
    cases hr : rootMatch fs (l ++ [a]) with
    | error e => simp [findMonorepoRoot, hrev, findRootAux, hr]
    | ok b =>
      cases b with
      | true => simp [findMonorepoRoot, hrev, findRootAux, hr]
      | false =>
        simp [findMonorepoRoot, hrev, findRootAux, hr, List.dropLast_concat]

/-- Characterization of the null test. -/
theorem Json.isNull_iff (j : Json) : j.isNull = true ↔ j = .null := by
  cases j <;> simp [Json.isNull]

/-- Claim C1, counterexample: the subprocess exits with code 1 while its
stdout parses to a report claiming success, and both runTask
implementations return a result whose success field is the JSON true
value — not false as the claim requires of every dispatch mode. -/
theorem runTask_exit_override_cex :
    runTaskV1 1 (some (.obj [("success", .bool true), ("tasks", .arr [])])) =
      .ok { success := some (.bool true), tasks := some (.arr []) } ∧
    runTaskV2 1 (some (.obj [("success", .bool true), ("tasks", .arr [])])) =
      { success := some (.bool true), tasks := some (.arr []) } :=
  ⟨rfl, rfl⟩

/-- Claim C1, amended: when the subprocess exits non-zero and the parsed
report claims success, both runTask implementations return success true
(v1 because the truthy report field wins over the exit-code test, v2
because the report field is returned verbatim); only the synchronous
dispatch mode derives success from the exit status and returns false. -/
theorem runTask_success_sources (e : Int) (j : Json)
    (he : ¬ e = 0) (hj : j.lookup "success" = some (.bool true)) :
    (∃ t, runTaskV1 e (some j) = .ok { success := some (.bool true), tasks := t }) ∧
    (runTaskV2 e (some j)).success = some (.bool true) ∧
    (runTaskSync e (some j)).success = some (.bool false) := by
  have hnn : j.isNull = false := by
    cases j <;> simp_all [Json.lookup, Json.isNull]
  have hez : (e == 0) = false := by
    simpa using he
  refine ⟨⟨if truthy (j.lookup "tasks") then j.lookup "tasks" else some (.arr []), ?_⟩, ?_, ?_⟩
  · simp [runTaskV1, hnn, hj, truthy]
  · simp [runTaskV2, hnn, hj]
  · simp [runTaskSync, hnn, hez]

/-- Witness for the amended claim C1 at exit code 1 and a concrete
success-claiming report. -/
theorem runTask_success_sources_w :
    (¬ (1 : Int) = 0) ∧
    (Json.obj [("success", Json.bool true)]).lookup "success" = some (.bool true) ∧
    ((∃ t, runTaskV1 1 (some (.obj [("success", .bool true)])) =
        .ok { success := some (.bool true), tasks := t }) ∧
     (runTaskV2 1 (some (.obj [("success", .bool true)]))).success = some (.bool true) ∧
     (runTaskSync 1 (some (.obj [("success", .bool true)]))).success = some (.bool false)) :=
  ⟨by decide, rfl, runTask_success_sources 1 _ (by decide) rfl⟩

/-- Claim C2, counterexample: on unparseable stdout the first runTask
implementation raises a parse error instead of returning the safe
default value. -/
theorem runTask_malformed_cex : runTaskV1 0 none = .error SdkError.parseError := rfl

/-- Claim C2, amended: on unparseable stdout the second runTask
implementation returns the failure default (success false, empty tasks)
for every exit code, while the first implementation rethrows the parse
failure as an error. -/
theorem runTask_malformed_default (e : Int) :
    runTaskV2 e none = { success := some (.bool false), tasks := some (.arr []) } ∧
    runTaskV1 e none = .error SdkError.parseError :=
  ⟨rfl, rfl⟩

/-- Claim C10, counterexample: with exit code 0 and a report claiming
failure, the asynchronous mode returns success false while the
synchronous mode returns success true, so the two modes disagree on the
same exit status and stdout. -/
theorem sync_async_disagree_cex :
    (runTaskV2 0 (some (.obj [("success", .bool false), ("tasks", .arr [])]))).success =
      some (.bool false) ∧
    (runTaskSync 0 (some (.obj [("success", .bool false), ("tasks", .arr [])]))).success =
      some (.bool true) ∧
    runTaskV2 0 (some (.obj [("success", .bool false), ("tasks", .arr [])])) ≠
      runTaskSync 0 (some (.obj [("success", .bool false), ("tasks", .arr [])])) :=
  ⟨rfl, rfl, by simp [runTaskV2, runTaskSync, Json.lookup, Json.isNull]⟩

/-- Claim C10, amended: for every exit code and stdout parse outcome the
two dispatch modes agree on the tasks field, and their full results are
equal exactly when stdout is unparseable (or parses to JSON null), or
the report's success field is precisely the boolean stating that the
exit code was zero — the two modes derive success from those two
different sources. -/
theorem sync_async_agreement (e : Int) (st : Option Json) :
    (runTaskV2 e st).tasks = (runTaskSync e st).tasks ∧
    (runTaskV2 e st = runTaskSync e st ↔
      st = none ∨ st = some .null ∨
      (∃ j, st = some j ∧ j.lookup "success" = some (.bool (e == 0)))) := by
  cases st with
  | none => simp [runTaskV2, runTaskSync]
  | some j =>
    by_cases hn : j.isNull = true
    · have hj : j = .null := (Json.isNull_iff j).mp hn
      subst hj
      simp [runTaskV2, runTaskSync, Json.isNull]
    · have hn' : j.isNull = false := by simpa using hn
      have hjn : ¬ j = .null := by
        intro h; subst h; simp [Json.isNull] at hn'
      constructor
      · simp [runTaskV2, runTaskSync, hn']
      · simp only [runTaskV2, runTaskSync, hn', Bool.false_eq_true, if_false]
        constructor
        · intro h
          have := congrArg RunResult.success h
          exact Or.inr (Or.inr ⟨j, rfl, this⟩)
        · rintro (h | h | ⟨j', hj', hs⟩)
          · exact absurd h (by simp)
          · exact absurd h (by simp [hjn])
          · cases Option.some.inj hj'
            simp [RunResult.mk.injEq, hs]

/-- Claim C8: the missing-dependency check is a construction-time
precondition — either constructor fails with the missing-dependency
error exactly when the orchestration executable is absent from the
node_modules bin directory of the root — and the dispatch call itself
never raises that error. -/
theorem turbo_installed_check (fs : FS) (root : FsPath) :
    (mkTurboSdkV1 fs root = .error SdkError.missingDependency ↔
      fs.pathExists (root ++ ["node_modules", ".bin", "turbo"]) = false) ∧
    (mkTurboSdkV2 fs root = .error SdkError.missingDependency ↔
      fs.pathExists (root ++ ["node_modules", ".bin", "turbo"]) = false) ∧
    (∀ (e : Int) (st : Option Json), runTaskV1 e st ≠ .error SdkError.missingDependency) := by
  refine ⟨?_, ?_, ?_⟩
  · unfold mkTurboSdkV1 isTurboInstalled
    cases h : fs.pathExists (root ++ ["node_modules", ".bin", "turbo"]) <;> simp [h]
  · unfold mkTurboSdkV2
    cases h : fs.pathExists (root ++ ["node_modules", ".bin", "turbo"]) <;> simp [h]
  · intro e st
    cases st with
    | none => simp [runTaskV1]
    | some j =>
      by_cases hn : j.isNull = true <;> simp [runTaskV1, hn]

/-- Claim C3, counterexample: a directory whose manifest declares an
empty workspaces list does not qualify under the claim's non-empty
condition, yet the root walk accepts it as the repository root. -/
theorem root_empty_workspaces_cex :
    specQualifies fsEmptyWs ["repo"] = false ∧
    findMonorepoRoot fsEmptyWs ["repo"] = .ok ["repo"] :=
  ⟨rfl, rfl⟩

/-- Claim C3, amended: the walk recognizes a directory as the repository
root exactly when it contains the marker file, or a manifest that reads
successfully (to a non-null document) whose workspaces field is truthy —
any declared workspaces list qualifies, the empty list included; a
manifest lacking the field (or with a null or false field) is not a
match and the walk continues to the parent. -/
theorem rootMatch_spec (fs : FS) (dir : FsPath) :
    (rootMatch fs dir = .ok true → findMonorepoRoot fs dir = .ok dir) ∧
    (rootMatch fs dir = .ok false →
      findMonorepoRoot fs dir =
        if dir = [] then .error SdkError.notInMonorepo
        else findMonorepoRoot fs dir.dropLast) ∧
    (rootMatch fs dir = .ok true ↔
      fs.pathExists (dir ++ ["turbo.json"]) = true ∨
      (fs.pathExists (dir ++ ["turbo.json"]) = false ∧
       fs.pathExists (dir ++ ["package.json"]) = true ∧
       ∃ j, fs.readJson (dir ++ ["package.json"]) = some j ∧
         j.isNull = false ∧ truthy (j.lookup "workspaces") = true)) := by
  refine ⟨?_, ?_, ?_⟩
  · intro h; rw [findMonorepoRoot_eq, h]
  · intro h; rw [findMonorepoRoot_eq, h]
  · unfold rootMatch
    cases ht : fs.pathExists (dir ++ ["turbo.json"])
    · cases hp : fs.pathExists (dir ++ ["package.json"])
      · simp
      · cases hr : fs.readJson (dir ++ ["package.json"]) with
        | none => simp
        | some j =>
          cases hn : j.isNull <;> simp [hn]
    · simp

/-- Witness for the amended claim C3: the empty-list manifest satisfies
the code's match condition and the walk returns its directory. -/
theorem rootMatch_spec_w :
    rootMatch fsEmptyWs ["repo"] = .ok true ∧
    findMonorepoRoot fsEmptyWs ["repo"] = .ok ["repo"] :=
  ⟨rfl, (rootMatch_spec fsEmptyWs ["repo"]).1 rfl⟩

/-- Claim C4, counterexample: a start directory none of whose ancestors
qualifies in the claim's sense (no marker file, no manifest with a
non-empty workspace list) for which the walk nevertheless returns a
path instead of failing with the not-in-monorepo error. -/
theorem root_walk_no_qualifying_cex :
    (prefixListOf ["repo"]).all (fun p => !(specQualifies fsEmptyWs p)) = true ∧
    findMonorepoRoot fsEmptyWs ["repo"] = .ok ["repo"] :=
  ⟨rfl, rfl⟩

/-- Claim C4, amended: when the code's single-step match test yields
false on every ancestor of the start directory (filesystem root
included), the walk terminates with the not-in-monorepo error — raised
at the filesystem root, the fixpoint of the parent step — and never
returns a path. -/
theorem root_walk_exhaustion_fails (fs : FS) (dir : FsPath)
    (h : ∀ p : FsPath, (∃ t, p ++ t = dir) → rootMatch fs p = .ok false) :
    findMonorepoRoot fs dir = .error SdkError.notInMonorepo := by
  induction dir using List.reverseRecOn with
  | nil =>
    rw [findMonorepoRoot_eq, h [] ⟨[], rfl⟩]
    simp
  | append_singleton l a ih =>
    rw [findMonorepoRoot_eq, h (l ++ [a]) ⟨[], by simp⟩]
    have hne : ¬ l ++ [a] = [] := by simp
    rw [if_neg hne, List.dropLast_concat]
    exact ih fun p hp => by
      obtain ⟨t, ht⟩ := hp
      exact h p ⟨t ++ [a], by rw [← List.append_assoc, ht]⟩

/-- Witness for the amended claim C4 on an empty filesystem. -/
theorem root_walk_exhaustion_fails_w :
    (∀ p : FsPath, (∃ t, p ++ t = ["a", "b"]) → rootMatch fsNothing p = .ok false) ∧
    findMonorepoRoot fsNothing ["a", "b"] = .error SdkError.notInMonorepo :=
  ⟨fun _ _ => rfl, root_walk_exhaustion_fails fsNothing ["a", "b"] (fun _ _ => rfl)⟩

/-- Claim C9: whenever the root walk succeeds, the returned path is an
ancestor of (a prefix of, or equal to) the start directory — the walk
only ever moves upward. -/
theorem findRoot_returns_ancestor (fs : FS) (dir r : FsPath)
    (h : findMonorepoRoot fs dir = .ok r) : ∃ t, r ++ t = dir := by
  have aux : ∀ (rev : List String) (r' : FsPath),
      findRootAux fs rev = .ok r' → ∃ u, rev = u ++ r'.reverse := by
    intro rev
    induction rev with
    | nil =>
      intro r' h'
      simp only [findRootAux] at h'
      cases hm : rootMatch fs [] with
      | error e => rw [hm] at h'; cases h'
      | ok b =>
        cases b with
        | true =>
          rw [hm] at h'
          cases h'
          exact ⟨[], rfl⟩
        | false => rw [hm] at h'; cases h'
    | cons x rest ih =>
      intro r' h'
      simp only [findRootAux] at h'
      cases hm : rootMatch fs (x :: rest).reverse with
      | error e => rw [hm] at h'; cases h'
      | ok b =>
        cases b with
        | true =>
          rw [hm] at h'
          cases h'
          exact ⟨[], by simp⟩
        | false =>
          rw [hm] at h'
          obtain ⟨u, hu⟩ := ih r' h'
          exact ⟨x :: u, by simp [hu]⟩
  obtain ⟨u, hu⟩ := aux dir.reverse r h
  refine ⟨u.reverse, ?_⟩
  have := congrArg List.reverse hu
  simpa using this.symm

/-- Witness for claim C9: a start directory that is itself the root. -/
theorem findRoot_returns_ancestor_w :
    findMonorepoRoot fsMarker ["a"] = .ok ["a"] ∧ ∃ t, ["a"] ++ t = ["a"] :=
  ⟨rfl, findRoot_returns_ancestor fsMarker ["a"] ["a"] rfl⟩

/-- Reduction of a bind on a successful result. -/
theorem okBind {ε α β : Type} (a : α) (f : α → Except ε β) :
    (Except.ok a : Except ε α) >>= f = f a := rfl

/-- Reduction of a bind on an error result. -/
theorem errBind {ε α β : Type} (e : ε) (f : α → Except ε β) :
    (Except.error e : Except ε α) >>= f = .error e := rfl

/-- Characterization of the head step of the lexicographic comparison. -/
theorem charListLe_cons_iff (x y : Char) (xs ys : List Char) :
    charListLe (x :: xs) (y :: ys) = true ↔
      x.toNat < y.toNat ∨ (x.toNat = y.toNat ∧ charListLe xs ys = true) := by
  simp only [charListLe]
  split_ifs with h1 h2
  · simp [h1]
  · constructor
    · intro h; cases h
    · intro h; omega
  · have hxy : x.toNat = y.toNat := by omega
    simp [hxy, h1, h2]

/-- Transitivity of the lexicographic comparison. -/
theorem charListLe_trans :
    ∀ a b c : List Char, charListLe a b = true → charListLe b c = true →
      charListLe a c = true := by
  intro a
  induction a with
  | nil => intro b c _ _; rfl
  | cons x xs ih =>
    intro b c hab hbc
    cases b with
    | nil => exact absurd hab (by simp [charListLe])
    | cons y ys =>
      cases c with
      | nil => exact absurd hbc (by simp [charListLe])
      | cons z zs =>
        rw [charListLe_cons_iff] at hab hbc ⊢
        rcases hab with h | ⟨h, hab'⟩ <;> rcases hbc with h' | ⟨h', hbc'⟩
        · exact Or.inl (by omega)
        · exact Or.inl (by omega)
        · exact Or.inl (by omega)
        · exact Or.inr ⟨by omega, ih ys zs hab' hbc'⟩

/-- Totality of the lexicographic comparison. -/
theorem charListLe_total :
    ∀ a b : List Char, (charListLe a b || charListLe b a) = true := by
  intro a
  induction a with
  | nil => intro b; simp [charListLe]
  | cons x xs ih =>
    intro b
    cases b with
    | nil => simp [charListLe]
    | cons y ys =>
      simp only [Bool.or_eq_true, charListLe_cons_iff]
      rcases Nat.lt_trichotomy x.toNat y.toNat with h | h | h
      · exact Or.inl (Or.inl h)
      · rcases (by simpa using ih ys :
            charListLe xs ys = true ∨ charListLe ys xs = true) with h' | h'
        · exact Or.inl (Or.inr ⟨h, h'⟩)
        · exact Or.inr (Or.inr ⟨h.symm, h'⟩)
      · exact Or.inr (Or.inl h)

/-- Transitivity of the string comparison used by the sort call. -/
theorem strLe_trans (a b c : String) (hab : strLe a b = true)
    (hbc : strLe b c = true) : strLe a c = true :=
  charListLe_trans a.data b.data c.data hab hbc

/-- Totality of the string comparison used by the sort call. -/
theorem strLe_total (a b : String) : (strLe a b || strLe b a) = true :=
  charListLe_total a.data b.data

/-- Expansion of a single glob in implementation v2 succeeds and returns
exactly the members of that glob, provided the listing of an existing
base succeeds. -/
theorem wsOfGlobV2_members (fs : FS) (root : FsPath) (g : String)
    (hwf : fs.pathExists (root ++ splitPath (jsReplaceOnce g "/*")) = true →
      (fs.readdir (root ++ splitPath (jsReplaceOnce g "/*"))).isSome = true) :
    ∃ xs, wsOfGlobV2 fs root g = .ok xs ∧
      ∀ x, x ∈ xs ↔ globMemberV2 fs root g x = true := by
  by_cases hp : fs.pathExists (root ++ splitPath (jsReplaceOnce g "/*")) = true
  · obtain ⟨entries, hent⟩ := Option.isSome_iff_exists.mp (hwf hp)
    refine ⟨entries.filterMap (fun e =>
        if e.2 && fs.pathExists (root ++ splitPath (jsReplaceOnce g "/*") ++
            [e.1, "package.json"])
        then some (jsReplaceOnce g "/*" ++ "/" ++ e.1) else none), ?_, ?_⟩
    · simp only [wsOfGlobV2, hp, if_true, hent]
    · intro x
      simp only [globMemberV2, hp, hent, Option.getD_some, Bool.true_and,
        List.mem_filterMap, List.any_eq_true]
      constructor
      · rintro ⟨e, he, hfe⟩
        refine ⟨e, he, ?_⟩
        by_cases hc : (e.2 && fs.pathExists
            (root ++ splitPath (jsReplaceOnce g "/*") ++ [e.1, "package.json"])) = true
        · rw [if_pos hc] at hfe
          cases hfe
          rw [hc]
          simp
        · rw [if_neg hc] at hfe
          cases hfe
      · rintro ⟨e, he, hc⟩
        refine ⟨e, he, ?_⟩
        rw [Bool.and_eq_true, Bool.and_eq_true, beq_iff_eq] at hc
        obtain ⟨⟨hdir, hpkg⟩, hx⟩ := hc
        rw [if_pos (by rw [hdir, Bool.true_and]; exact hpkg), hx]
  · have hp' : fs.pathExists (root ++ splitPath (jsReplaceOnce g "/*")) = false := by
      simpa using hp
    refine ⟨[], ?_, ?_⟩
    · simp only [wsOfGlobV2, hp', Bool.false_eq_true, if_false]
    · intro x
      simp [globMemberV2, hp']

/-- Accumulation over a list of string globs in implementation v2
succeeds and collects exactly the union of the per-glob members. -/
theorem collectGlobsV2_members (fs : FS) (root : FsPath) :
    ∀ gs : List String,
      (∀ g ∈ gs, fs.pathExists (root ++ splitPath (jsReplaceOnce g "/*")) = true →
        (fs.readdir (root ++ splitPath (jsReplaceOnce g "/*"))).isSome = true) →
      ∃ l, collectGlobsV2 fs root (gs.map Json.str) = .ok l ∧
        ∀ x, x ∈ l ↔ ∃ g ∈ gs, globMemberV2 fs root g x = true := by
  intro gs
  induction gs with
  | nil => intro _; exact ⟨[], rfl, by simp⟩
  | cons g gs ih =>
    intro hwf
    obtain ⟨xs, hxs, hxsm⟩ := wsOfGlobV2_members fs root g (hwf g (by simp))
    obtain ⟨l, hl, hlm⟩ := ih (fun g' hg' => hwf g' (by simp [hg']))
    refine ⟨xs ++ l, ?_, ?_⟩
    · rw [List.map_cons]
      simp only [collectGlobsV2]
      rw [hxs, okBind, hl, okBind]
      rfl
    · intro x
      simp only [List.mem_append, hxsm x, hlm x, List.exists_mem_cons_iff]

/-- Claim C5, counterexample: with globs declared in the order b then a,
implementation v1 returns the members in glob order, which is not
lexicographic (the first returned path compares strictly greater than
the second). -/
theorem workspaces_unsorted_cex :
    getWorkspacesV1 fsTwoGlobs [] = .ok ["b/x", "a/y"] ∧
    strLe "b/x" "a/y" = false :=
  ⟨rfl, rfl⟩

/-- Claim C5, amended: implementation v2 returns exactly the immediate
subdirectories of each glob's base directory that contain a package
manifest — non-directory entries and manifest-less directories excluded
— sorted lexicographically by code point; implementation v1 returns the
same members but in glob-then-listing order without the final sort. -/
theorem getWorkspacesV2_spec (fs : FS) (root : FsPath) (m : Json) (gs : List String)
    (hm : readManifest fs (root ++ ["package.json"]) = .ok m)
    (hg : manifestGlobs m = gs.map Json.str)
    (hwf : ∀ g ∈ gs, fs.pathExists (root ++ splitPath (jsReplaceOnce g "/*")) = true →
      (fs.readdir (root ++ splitPath (jsReplaceOnce g "/*"))).isSome = true) :
    ∃ l, getWorkspacesV2 fs root = .ok l ∧
      l.Pairwise (fun a b => strLe a b = true) ∧
      ∀ x, x ∈ l ↔ ∃ g ∈ gs, globMemberV2 fs root g x = true := by
  obtain ⟨l0, hl0, hmem⟩ := collectGlobsV2_members fs root gs hwf
  refine ⟨l0.mergeSort strLe, ?_, ?_, ?_⟩
  · simp only [getWorkspacesV2, hm, okBind]
    rw [hg, hl0, okBind]
    rfl
  · exact List.sorted_mergeSort strLe_trans strLe_total l0
  · intro x
    rw [List.mem_mergeSort]
    exact hmem x

/-- Witness for the amended claim C5 on the enumeration fixture: two
globs, a manifested member each side, a manifest-less directory and a
non-directory entry excluded, result sorted. -/
theorem getWorkspacesV2_spec_w :
    readManifest fsEnum ([] ++ ["package.json"]) =
      .ok (.obj [("workspaces", .arr [.str "packages/*", .str "apps/*"])]) ∧
    manifestGlobs (.obj [("workspaces", .arr [.str "packages/*", .str "apps/*"])]) =
      (["packages/*", "apps/*"] : List String).map Json.str ∧
    (∃ l, getWorkspacesV2 fsEnum [] = .ok l ∧
      l.Pairwise (fun a b => strLe a b = true) ∧
      ∀ x, x ∈ l ↔ ∃ g ∈ (["packages/*", "apps/*"] : List String),
        globMemberV2 fsEnum [] g x = true) :=
  ⟨rfl, rfl,
    getWorkspacesV2_spec fsEnum []
      (.obj [("workspaces", .arr [.str "packages/*", .str "apps/*"])])
      ["packages/*", "apps/*"] rfl rfl (by decide)⟩

/-- Claim C6, counterexample: a glob whose base directory is missing
makes implementation v1 raise the directory-listing error instead of
contributing zero members. -/
theorem workspaces_missing_base_cex :
    getWorkspacesV1 fsMissingBase [] = .error SdkError.readdirError := rfl

/-- Claim C6, amended: in implementation v2 a glob whose base directory
does not exist contributes zero members and drops out of the
accumulation entirely, so enumeration of the remaining globs proceeds
normally; implementation v1 instead raises from the directory listing. -/
theorem workspaces_missing_base_skipped (fs : FS) (root : FsPath) (g : String)
    (h : fs.pathExists (root ++ splitPath (jsReplaceOnce g "/*")) = false) :
    wsOfGlobV2 fs root g = .ok [] ∧
    ∀ gs gs', collectGlobsV2 fs root (gs ++ Json.str g :: gs') =
      collectGlobsV2 fs root (gs ++ gs') := by
  have hws : wsOfGlobV2 fs root g = .ok [] := by
    simp only [wsOfGlobV2, h, Bool.false_eq_true, if_false]
  refine ⟨hws, ?_⟩
  intro gs gs'
  induction gs with
  | nil =>
    simp only [List.nil_append, collectGlobsV2, hws, okBind]
    cases hc : collectGlobsV2 fs root gs' <;> rfl
  | cons j rest ih =>
    cases j <;> simp [collectGlobsV2, ih]

/-- Witness for the amended claim C6 at the missing-base fixture. -/
theorem workspaces_missing_base_skipped_w :
    fsMissingBase.pathExists ([] ++ splitPath (jsReplaceOnce "missing/*" "/*")) = false ∧
    (wsOfGlobV2 fsMissingBase [] "missing/*" = .ok [] ∧
     ∀ gs gs', collectGlobsV2 fsMissingBase [] (gs ++ Json.str "missing/*" :: gs') =
       collectGlobsV2 fsMissingBase [] (gs ++ gs')) :=
  ⟨rfl, workspaces_missing_base_skipped fsMissingBase [] "missing/*" rfl⟩

/-- Claim C7, counterexample: with a first member whose manifest fails
to read and a second member declaring a build script, the catalog
builder aborts with the manifest read error instead of skipping the bad
member and producing the remaining catalog. -/
theorem listTasks_bad_member_cex :
    listTasks fsBadMember [] ["pkgs/a", "pkgs/b"] = .error SdkError.manifestReadError := rfl

/-- Claim C7, amended: when a member's manifest fails to read, the
catalog builder aborts the whole catalog with the manifest read error —
provided the members before it read cleanly — and the members after it
are never processed; neither implementation skips the member. -/
theorem listTasks_aborts_on_bad_manifest (fs : FS) (root : FsPath)
    (pre post : List String) (w : String)
    (hpre : ∀ w' ∈ pre, ∃ j, fs.readJson (root ++ splitPath w' ++ ["package.json"]) = some j ∧
      j.isNull = false)
    (hw : fs.readJson (root ++ splitPath w ++ ["package.json"]) = none) :
    listTasks fs root (pre ++ w :: post) = .error SdkError.manifestReadError := by
  have aux : ∀ (ws : List String) (acc : List (String × List String)),
      (∀ w' ∈ ws, ∃ j, fs.readJson (root ++ splitPath w' ++ ["package.json"]) = some j ∧
        j.isNull = false) →
      listTasksGo fs root (ws ++ w :: post) acc = .error SdkError.manifestReadError := by
    intro ws
    induction ws with
    | nil =>
      intro acc _
      simp only [List.nil_append, listTasksGo, hw]
    | cons w' rest ih =>
      intro acc hws
      obtain ⟨j, hj, hjn⟩ := hws w' (by simp)
      simp only [List.cons_append, listTasksGo, hj, hjn, Bool.false_eq_true, if_false]
      exact ih _ fun x hx => hws x (by simp [hx])
  exact aux pre [] hpre

/-- Witness for the amended claim C7: a clean member precedes the bad
one, and the catalog still aborts. -/
theorem listTasks_aborts_on_bad_manifest_w :
    (∀ w' ∈ (["pkgs/b"] : List String),
      ∃ j, fsBadMember.readJson ([] ++ splitPath w' ++ ["package.json"]) = some j ∧
        j.isNull = false) ∧
    fsBadMember.readJson ([] ++ splitPath "pkgs/a" ++ ["package.json"]) = none ∧
    listTasks fsBadMember [] (["pkgs/b"] ++ "pkgs/a" :: []) = .error SdkError.manifestReadError := by
  refine ⟨?_, rfl, ?_⟩
  · intro w' hw'
    have h : w' = "pkgs/b" := by simpa using hw'
    subst h
    exact ⟨.obj [("name", .str "b"), ("scripts", .obj [("build", .str "x")])], rfl, rfl⟩
  · exact listTasks_aborts_on_bad_manifest fsBadMember [] ["pkgs/b"] [] "pkgs/a"
      (fun w' hw' => by
        have h : w' = "pkgs/b" := by simpa using hw'
        subst h
        exact ⟨.obj [("name", .str "b"), ("scripts", .obj [("build", .str "x")])], rfl, rfl⟩)
      rfl

/-- Witness for claim C2 at a concrete non-zero exit code. -/
theorem runTask_malformed_default_w :
    runTaskV2 7 none = { success := some (.bool false), tasks := some (.arr []) } ∧
    runTaskV1 7 none = .error SdkError.parseError :=
  runTask_malformed_default 7

/-- Witness for claim C8 on the empty filesystem. -/
theorem turbo_installed_check_w :
    mkTurboSdkV1 fsNothing [] = .error SdkError.missingDependency ∧
    mkTurboSdkV2 fsNothing [] = .error SdkError.missingDependency :=
  ⟨(turbo_installed_check fsNothing []).1.mpr rfl,
   (turbo_installed_check fsNothing []).2.1.mpr rfl⟩

/-- Witness for the amended claim C10 at unparseable stdout. -/
theorem sync_async_agreement_w :
    (runTaskV2 0 none).tasks = (runTaskSync 0 none).tasks ∧
    (runTaskV2 0 none = runTaskSync 0 none ↔
      (none : Option Json) = none ∨ (none : Option Json) = some .null ∨
      (∃ j, (none : Option Json) = some j ∧
        j.lookup "success" = some (.bool ((0 : Int) == 0)))) :=
  sync_async_agreement 0 none

end TurboKit
